import Mathlib

/-!
Verification of the yt-dlp-tauri subprocess execution engine.

This file gives a shallow embedding, in Lean, of the core logic of the
repository's Rust sources (`src-tauri/src/ytdlp/{downloader,updater,manager}.rs`)
and proves properties of that embedding.

Modelling conventions:
* Rust `f64` values that arise here are decimal numerals parsed from digit
  strings; they are modelled as `ℚ`.
* External effects (filesystem existence checks, child-process output lines,
  HTTP chunks, exit statuses) are passed in as explicit parameters, so each
  Rust function becomes a pure Lean function of its observations.
* `serde_json::Value` is modelled by the inductive `Json` below; the result of
  `serde_json::from_str` on one stdout line is modelled as an `Option Json`
  (`none` = parse error).
* The Rust `regex` crate's leftmost-first backtracking semantics is modelled by
  an all-outcomes matcher (`matchAll`) whose outcome list is ordered by
  backtracking priority; `findCaptures` takes the first outcome at the
  leftmost matching start position, which is exactly `Regex::captures`.
-/

/-! ## Updater: version check (`updater.rs`) -/

/-- Rust `VersionInfo` from `updater.rs`. -/
structure VersionInfo where
  tag_name : String
  published_at : String
  html_url : String
deriving DecidableEq, Repr

/-- Rust `UpdateStatus` from `updater.rs`. -/
structure UpdateStatus where
  installed : Bool
  current_version : Option String
  latest_version : Option String
  update_available : Bool
deriving DecidableEq, Repr

/-- Rust `Updater::check_update_status` from `updater.rs` (lines 83–107).
`versionResult` models `self.manager.get_ytdlp_version().ok()` (the outcome of
running the binary with `--version`); `latestResult` models
`self.get_latest_version().await.ok()`. The source wraps the record in `Ok`
and can never return `Err`; we return the record directly. -/
def check_update_status (installed : Bool) (versionResult : Option String)
    (latestResult : Option VersionInfo) : UpdateStatus :=
  let current_version := if installed then versionResult else none
  let latest_version := latestResult.map (fun v => v.tag_name)
  let update_available :=
    match current_version, latest_version with
    | some current, some latest => current != latest
    | none, some _ => true
    | _, _ => false
  { installed := installed
    current_version := current_version
    latest_version := latest_version
    update_available := update_available }

/-! ## JSON model (`serde_json::Value`) and `get_video_info` -/

/-- Model of `serde_json::Value`. Numbers are modelled as `ℚ` (the source only
reads them back through `as_f64`). Objects are association lists; the source
obtains them from parsed JSON, whose maps have unique keys, so first-key
lookup models `serde_json` map lookup. -/
inductive Json where
  | null : Json
  | bool (b : Bool) : Json
  | num (q : ℚ) : Json
  | str (s : String) : Json
  | arr (elems : List Json) : Json
  | obj (fields : List (String × Json)) : Json

/-- Rust `Value::index` (`value["key"]`): `Null` when the key is absent or the
value is not an object. -/
def Json.idx (j : Json) (key : String) : Json :=
  match j with
  | .obj fields => ((fields.find? (fun p => p.1 == key)).map Prod.snd).getD .null
  | _ => .null

/-- Rust `Value::get("key")`: `None` when the key is absent or the value is not an
object. -/
def Json.getKey (j : Json) (key : String) : Option Json :=
  match j with
  | .obj fields => (fields.find? (fun p => p.1 == key)).map Prod.snd
  | _ => none

/-- Rust `Value::as_str`. -/
def Json.asStr : Json → Option String
  | .str s => some s
  | _ => none

/-- Rust `Value::as_f64` (every `serde_json` number converts, so `num` always
succeeds). -/
def Json.asF64 : Json → Option ℚ
  | .num q => some q
  | _ => none

/-- Rust `Value::as_array`. -/
def Json.asArr : Json → Option (List Json)
  | .arr elems => some elems
  | _ => none

/-- Rust `PlaylistEntry` from `downloader.rs`. -/
structure PlaylistEntry where
  id : String
  title : String
  duration : Option ℚ
  thumbnail : Option String
deriving DecidableEq, Repr

/-- Rust `VideoInfo` from `downloader.rs`. -/
structure VideoInfo where
  id : String
  title : String
  duration : Option ℚ
  thumbnail : Option String
  description : Option String
  uploader : Option String
  is_playlist : Bool
  playlist_count : Option Nat
  entries : Option (List PlaylistEntry)
deriving DecidableEq, Repr

/-- Rust `DownloaderError` from `downloader.rs`. -/
inductive DownloaderError where
  | binaryNotFound
  | executionError (msg : String)
  | downloadFailed (msg : String)
  | ioError (msg : String)
  | jsonError (msg : String)
  | managerError (msg : String)
deriving DecidableEq, Repr

/-- The entry built for one successfully parsed line in the multi-line
(playlist) branch of `get_video_info` (lines 170–179): a missing or
non-string `id` falls back to `""`, a missing `title` to `"Unknown"`. -/
def mkEntryMulti (e : Json) : PlaylistEntry :=
  { id := ((e.idx "id").asStr).getD ""
    title := ((e.idx "title").asStr).getD "Unknown"
    duration := (e.idx "duration").asF64
    thumbnail := (e.idx "thumbnail").asStr }

/-- The `filter_map` closure of the single-line playlist-reference branch
(lines 203–215): `entry["id"].as_str()?` aborts the closure, dropping the
entry, when `id` is missing or not a string. -/
def mkEntryFromRef (e : Json) : Option PlaylistEntry :=
  ((e.idx "id").asStr).map (fun i =>
    { id := i
      title := ((e.idx "title").asStr).getD "Unknown"
      duration := (e.idx "duration").asF64
      thumbnail := (e.idx "thumbnail").asStr })

/-- The single-JSON-line case of `get_video_info` (lines 194–242), applied to
the parse result of the unique stdout line. -/
def singleLineInfo (o : Option Json) : Except DownloaderError VideoInfo :=
  match o with
  | none => .error (.jsonError "expected value")
  | some j =>
    if (j.getKey "_type").bind Json.asStr == some "playlist" then
      let entries :=
        (((j.getKey "entries").bind Json.asArr).map
          (fun arr => arr.filterMap mkEntryFromRef)).getD []
      .ok { id := ((j.idx "id").asStr).getD "playlist"
            title := ((j.idx "title").asStr).getD "Playlist"
            duration := none
            thumbnail := (j.idx "thumbnail").asStr
            description := none
            uploader := (j.idx "uploader").asStr
            is_playlist := true
            playlist_count := some entries.length
            entries := some entries }
    else
      .ok { id := ((j.idx "id").asStr).getD ""
            title := ((j.idx "title").asStr).getD "Unknown"
            duration := (j.idx "duration").asF64
            thumbnail := (j.idx "thumbnail").asStr
            description := (j.idx "description").asStr
            uploader := (j.idx "uploader").asStr
            is_playlist := false
            playlist_count := none
            entries := none }

/-- Rust `Downloader::get_video_info` from `downloader.rs` (lines 132–243).
`installed` models `self.manager.is_ytdlp_installed()`; `exitOk` models
`output.status.success()`; `stderr` the captured stderr; `lines` the parse
results of the stdout lines (one `Option Json` per nonempty line, in order).
The multi-line branch (lines 167–192) keeps every successfully parsed line;
the single-line branch propagates a JSON parse failure via `?`. -/
def getVideoInfo (installed exitOk : Bool) (stderr : String)
    (lines : List (Option Json)) : Except DownloaderError VideoInfo :=
  if !installed then .error .binaryNotFound
  else if !exitOk then .error (.executionError stderr)
  else
    match lines with
    | [] => .error (.executionError "No output from yt-dlp")
    | [o] => singleLineInfo o
    | _ =>
      let entries := lines.filterMap (fun o => o.map mkEntryMulti)
      .ok { id := "playlist"
            title := "Playlist"
            duration := none
            thumbnail := none
            description := none
            uploader := none
            is_playlist := true
            playlist_count := some entries.length
            entries := some entries }

/-! ## Line classifier (`downloader.rs`, download loop lines 352–407)

The progress regex is
`\[download\]\s+(\d+\.?\d*)%\s+of\s+~?\s*([\d.]+\w+)(?:\s+at\s+([\d.]+\w+/s))?(?:\s+ETA\s+(\S+))?`.
We model the `regex` crate's leftmost-first semantics: `matchAll` enumerates
every way a pattern can match a prefix of the input, ordered by backtracking
priority (greedy quantifiers longest-first, optionals present-first);
`findCaptures` scans start positions left to right and returns the capture
groups of the first outcome at the first matching position. -/

/-- Capture groups 1–4 of the progress regex (contents as character lists;
`none` = group did not participate in the match). -/
structure Caps where
  g1 : Option (List Char) := none
  g2 : Option (List Char) := none
  g3 : Option (List Char) := none
  g4 : Option (List Char) := none
deriving DecidableEq, Repr

/-- Record capture group `n`. -/
def setCap (n : Nat) (t : List Char) (c : Caps) : Caps :=
  if n = 1 then { c with g1 := some t }
  else if n = 2 then { c with g2 := some t }
  else if n = 3 then { c with g3 := some t }
  else if n = 4 then { c with g4 := some t }
  else c

/-- Regular-expression syntax, restricted to the constructs appearing in the
progress pattern: literals, character classes, concatenation, greedy `?` and
greedy `Kleene star of a class`, and numbered capture groups. -/
inductive RE where
  | eps : RE
  | ch (c : Char) : RE
  | cls (p : Char → Bool) : RE
  | seq (a b : RE) : RE
  | opt (a : RE) : RE
  | star (p : Char → Bool) : RE
  | grp (n : Nat) (a : RE) : RE

/-- All ways a greedy class-star can match: consume `k` characters of the
maximal run, `k` from the run length down to `0` (greedy order). -/
def starOutcomes (p : Char → Bool) (s : List Char) (cp : Caps) :
    List (List Char × Caps) :=
  ((List.range ((s.takeWhile p).length + 1)).reverse).map (fun k => (s.drop k, cp))

/-- All outcomes `(remaining input, captures)` of matching `re` against a
prefix of `s`, in backtracking-priority order (the `regex` crate reports the
first one). -/
def matchAll : RE → List Char → Caps → List (List Char × Caps)
  | .eps, s, cp => [(s, cp)]
  | .ch _, [], _ => []
  | .ch c, x :: xs, cp => if x = c then [(xs, cp)] else []
  | .cls _, [], _ => []
  | .cls p, x :: xs, cp => if p x then [(xs, cp)] else []
  | .seq a b, s, cp => (matchAll a s cp).flatMap (fun o => matchAll b o.1 o.2)
  | .opt a, s, cp => matchAll a s cp ++ [(s, cp)]
  | .star p, s, cp => starOutcomes p s cp
  | .grp n a, s, cp =>
    (matchAll a s cp).map (fun o => (o.1, setCap n (s.take (s.length - o.1.length)) o.2))

/-- A literal string, as a sequence of single characters. -/
def litsRE : List Char → RE
  | [] => .eps
  | c :: cs => .seq (.ch c) (litsRE cs)

/-- The class-plus `p+` encoded as `p p*`; same match set and same greedy backtracking
order as the regex `+` quantifier. -/
def plusC (p : Char → Bool) : RE :=
  .seq (.cls p) (.star p)

/-- Class `\s` (ASCII whitespace; the source's Unicode class agrees on the output
the downloader produces). -/
def wsP (c : Char) : Bool := c.isWhitespace

/-- Class `\d`. -/
def digitP (c : Char) : Bool := c.isDigit

/-- Class `[\d.]`. -/
def digDotP (c : Char) : Bool := c.isDigit || c == '.'

/-- Class `\w` (ASCII word character). -/
def wordP (c : Char) : Bool := c.isAlphanum || c == '_'

/-- Class `\S`. -/
def nonSpaceP (c : Char) : Bool := !c.isWhitespace

/-- Capture group 1, `(\d+\.?\d*)`. -/
def numRE : RE :=
  .seq (plusC digitP) (.seq (.opt (.ch '.')) (.star digitP))

/-- Capture group 2, `([\d.]+\w+)`. -/
def sizeRE : RE :=
  .seq (plusC digDotP) (plusC wordP)

/-- The optional speed group `(?:\s+at\s+([\d.]+\w+/s))?`. -/
def atOptRE : RE :=
  .opt (.seq (plusC wsP) (.seq (litsRE "at".data) (.seq (plusC wsP)
    (.grp 3 (.seq (plusC digDotP) (.seq (plusC wordP) (litsRE "/s".data)))))))

/-- The optional ETA group `(?:\s+ETA\s+(\S+))?`. -/
def etaOptRE : RE :=
  .opt (.seq (plusC wsP) (.seq (litsRE "ETA".data) (.seq (plusC wsP)
    (.grp 4 (plusC nonSpaceP)))))

/-- Everything of the progress pattern after capture group 1:
`%\s+of\s+~?\s*([\d.]+\w+)(?:\s+at\s+([\d.]+\w+/s))?(?:\s+ETA\s+(\S+))?`. -/
def tailRE : RE :=
  .seq (.ch '%') (.seq (plusC wsP) (.seq (litsRE "of".data) (.seq (plusC wsP)
    (.seq (.opt (.ch '~')) (.seq (.star wsP) (.seq (.grp 2 sizeRE)
      (.seq atOptRE etaOptRE)))))))

/-- The full progress pattern (`downloader.rs` lines 352–355). -/
def progressRE : RE :=
  .seq (litsRE "[download]".data) (.seq (plusC wsP) (.seq (.grp 1 numRE) tailRE))

/-- Rust `Regex::captures`: the captures of the first (by backtracking priority)
outcome at the leftmost start position where the pattern matches. -/
def findCaptures (re : RE) : List Char → Option Caps
  | [] =>
    match matchAll re [] {} with
    | o :: _ => some o.2
    | [] => none
  | c :: cs =>
    match matchAll re (c :: cs) {} with
    | o :: _ => some o.2
    | [] => findCaptures re cs

/-- Numeric value of a decimal digit string (most significant digit first). -/
def digitsVal (l : List Char) : Nat :=
  l.foldl (fun a c => a * 10 + (c.toNat - 48)) 0

/-- Rust `str::parse::<f64>().ok()` restricted to the numerals the classifier
feeds it. Capture group 1 always has the shape `\d+\.?\d*`; on such strings
Rust's parse succeeds and yields this exact decimal value, so the `none`
branches are unreachable from the classifier (mirroring that the parse's
error path is dead in the source). -/
def parseF64 (s : List Char) : Option ℚ :=
  let ip := s.takeWhile Char.isDigit
  if ip = [] then none
  else
    match s.dropWhile Char.isDigit with
    | [] => some ((digitsVal ip : ℕ) : ℚ)
    | '.' :: fr =>
      if fr.all Char.isDigit then
        some (((digitsVal ip : ℕ) : ℚ) + ((digitsVal fr : ℕ) : ℚ) / (10 : ℚ) ^ fr.length)
      else none
    | _ => none

/-- Rust `DownloadProgress` from `downloader.rs`. Percentages are the `ℚ` values
of the parsed numerals; byte counters are never set by the downloader. -/
structure DownloadProgress where
  status : String
  percentage : Option ℚ
  speed : Option String
  eta : Option String
  filename : Option String
  total_bytes : Option Nat
  downloaded_bytes : Option Nat
deriving DecidableEq, Repr

/-- Does `pat` occur at the start of `s`? (`str::starts_with`). -/
def startsWithCL : List Char → List Char → Bool
  | _, [] => true
  | [], _ :: _ => false
  | c :: cs, p :: ps => c == p && startsWithCL cs ps

/-- Does `pat` occur anywhere in `s`? (`str::contains`). -/
def containsCL : List Char → List Char → Bool
  | [], pat => startsWithCL [] pat
  | c :: cs, pat => startsWithCL (c :: cs) pat || containsCL cs pat

/-- Rust `str::replace(pat, "")`: delete every non-overlapping occurrence of `pat`,
scanning left to right. `fuel` bounds the recursion by the input length (each
step consumes at least one character when `pat` is nonempty). -/
def removeAllAux : Nat → List Char → List Char → List Char
  | 0, s, _ => s
  | _ + 1, [], _ => []
  | fuel + 1, c :: cs, pat =>
    if !pat.isEmpty && startsWithCL (c :: cs) pat then
      removeAllAux fuel (List.drop pat.length (c :: cs)) pat
    else c :: removeAllAux fuel cs pat

/-- Rust `str::replace(pat, "")` on character lists. -/
def removeAllCL (s pat : List Char) : List Char :=
  removeAllAux s.length s pat

/-- Rust `str::trim` (strip leading and trailing whitespace). -/
def trimCL (s : List Char) : List Char :=
  (((s.dropWhile Char.isWhitespace).reverse).dropWhile Char.isWhitespace).reverse

/-- The `"[download] Destination:"` marker. -/
def destMarker : List Char := "[download] Destination:".data

/-- The extraction-phase test of the download loop (line 359):
`line.starts_with("[youtube]") || line.starts_with("[info]") ||
line.contains("Extracting")`. -/
def extractMarkerB (cs : List Char) : Bool :=
  startsWithCL cs "[youtube]".data || startsWithCL cs "[info]".data ||
    containsCL cs "Extracting".data

/-- The `extracting` event (lines 360–368). -/
def extractingEvent : DownloadProgress :=
  ⟨"extracting", some 0, none, none, none, none, none⟩

/-- The synthetic `starting` event emitted before spawning (lines 328–336). -/
def startingEvent : DownloadProgress :=
  ⟨"starting", some 0, none, none, none, none, none⟩

/-- The `processing` event (lines 397–405). -/
def processingEvent : DownloadProgress :=
  ⟨"processing", some 100, none, none, none, none, none⟩

/-- The final `completed` event (lines 412–420). -/
def completedEvent : DownloadProgress :=
  ⟨"completed", some 100, none, none, none, none, none⟩

/-- The body of the line-reading loop (lines 357–407) as a pure classifier:
one stdout line to at most one progress event. Branch order as in the source:
extraction marker, then the progress regex, then the destination marker, then
the merger / audio-extraction markers; otherwise no event. -/
def classify (line : String) : Option DownloadProgress :=
  let cs := line.data
  if extractMarkerB cs then some extractingEvent
  else
    match findCaptures progressRE cs with
    | some caps =>
      some { status := "downloading"
             percentage := caps.g1.bind parseF64
             speed := caps.g3.map (fun l => String.mk l)
             eta := caps.g4.map (fun l => String.mk l)
             filename := none
             total_bytes := none
             downloaded_bytes := none }
    | none =>
      if containsCL cs destMarker then
        some { status := "starting"
               percentage := some 0
               speed := none
               eta := none
               filename := some (String.mk (trimCL (removeAllCL cs destMarker)))
               total_bytes := none
               downloaded_bytes := none }
      else if containsCL cs "[Merger]".data || containsCL cs "[ExtractAudio]".data then
        some processingEvent
      else none

/-! ## Argument vector and download orchestration (`downloader.rs` 245–427) -/

/-- Rust `VideoQuality` from `downloader.rs`. -/
inductive VideoQuality where
  | best
  | p720
  | p480
deriving DecidableEq, Repr

/-- Rust `VideoQuality::to_format_string` (lines 41–47). -/
def VideoQuality.to_format_string : VideoQuality → String
  | .best => "bv*+ba/b"
  | .p720 => "bv*[height<=720]+ba/b"
  | .p480 => "bv*[height<=480]+ba/b"

/-- Rust `VideoContainer` from `downloader.rs`. -/
inductive VideoContainer where
  | mp4
  | mkv
  | webm
deriving DecidableEq, Repr

/-- The container string of the `--merge-output-format` argument (lines 285–289). -/
def VideoContainer.toArg : VideoContainer → String
  | .mp4 => "mp4"
  | .mkv => "mkv"
  | .webm => "webm"

/-- Rust `AudioFormat` from `downloader.rs`. -/
inductive AudioFormat where
  | mp3
  | m4a
  | aac
  | flac
  | wav
deriving DecidableEq, Repr

/-- The codec string of the `--audio-format` argument (lines 294–300). -/
def AudioFormat.toArg : AudioFormat → String
  | .mp3 => "mp3"
  | .m4a => "m4a"
  | .aac => "aac"
  | .flac => "flac"
  | .wav => "wav"

/-- Rust `DownloadMode` from `downloader.rs`. -/
inductive DownloadMode where
  | video (quality : VideoQuality) (container : VideoContainer)
  | audio (format : AudioFormat)
deriving DecidableEq, Repr

/-- Rust `DownloadOptions` from `downloader.rs` (playlist items are 1-based
`usize` indices). -/
structure DownloadOptions where
  url : String
  output_dir : String
  mode : DownloadMode
  embed_subs : Bool
  playlist_items : Option (List Nat)
deriving DecidableEq, Repr

/-- Decimal digits of `n`, most significant first; `fuel` bounds the
recursion (`n + 1` always suffices). Models `usize::to_string`. -/
def natDigitsCh : Nat → Nat → List Char
  | 0, _ => []
  | fuel + 1, n =>
    if n < 10 then [Char.ofNat (48 + n)]
    else natDigitsCh fuel (n / 10) ++ [Char.ofNat (48 + n % 10)]

/-- Rust `usize::to_string`. -/
def natRepr (n : Nat) : String :=
  String.mk (natDigitsCh (n + 1) n)

/-- Rust `Vec::join(",")` over the playlist indices (lines 310–314). -/
def joinComma : List Nat → String
  | [] => ""
  | [n] => natRepr n
  | n :: m :: rest => natRepr n ++ "," ++ joinComma (m :: rest)

/-- The output template `output_dir.join("%(title)s.%(ext)s")` (lines
264–267), with the POSIX path separator (on Windows the separator differs but
the template is never `"-f"` either way). -/
def outputTemplate (outputDir : String) : String :=
  outputDir ++ "/%(title)s.%(ext)s"

/-- Rust `YtDlpManager::get_ffmpeg_path` (`manager.rs` lines 57–66), non-Windows
branch, as a string: the private bin directory joined with `ffmpeg`. -/
def getFfmpegPath (binDir : String) : String :=
  binDir ++ "/ffmpeg"

/-- The argument vector built by `Downloader::download` (lines 269–325):
base progress flags and output template, mode-specific flags, optional
subtitle flags, optional playlist selection, the muxer location when that
binary is installed, and finally the URL. -/
def buildArgs (binDir : String) (ffmpegInstalled : Bool)
    (opts : DownloadOptions) : List String :=
  ["--progress", "--newline", "--force-progress", "-o",
    outputTemplate opts.output_dir]
  ++ (match opts.mode with
      | .video quality container =>
        ["-f", quality.to_format_string, "--merge-output-format", container.toArg]
      | .audio format => ["-x", "--audio-format", format.toArg])
  ++ (if opts.embed_subs then ["--write-subs", "--embed-subs"] else [])
  ++ (match opts.playlist_items with
      | some items => ["--playlist-items", joinComma items]
      | none => [])
  ++ (if ffmpegInstalled then ["--ffmpeg-location", getFfmpegPath binDir] else [])
  ++ [opts.url]

/-- One observable step of `Downloader::download`: a progress event delivered
to the caller's callback, or the spawn of the child process. -/
inductive Step where
  | emit (p : DownloadProgress)
  | spawn (args : List String)
deriving DecidableEq, Repr

/-- Is this step the process spawn? -/
def Step.isSpawnStep : Step → Bool
  | .spawn _ => true
  | .emit _ => false

/-- Rust `Downloader::download` (lines 245–427) as a trace semantics. Parameters
model the observations of one call: `installed` =
`self.manager.is_ytdlp_installed()`; `mkdirOk` = whether
`create_dir_all` succeeds (when needed); `spawnOk` = whether `cmd.spawn()`
succeeds; `ffmpegInstalled` = `self.manager.is_ffmpeg_installed()`; `lines` =
the child's stdout lines in arrival order; `exitResult` = `some
status.success()` when `child.wait()` returns, `none` when it fails. The
first component is the ordered trace of observable steps, the second the
return value. -/
def download (installed mkdirOk spawnOk ffmpegInstalled : Bool) (binDir : String)
    (opts : DownloadOptions) (lines : List String) (exitResult : Option Bool) :
    List Step × Except DownloaderError String :=
  if !installed then ([], .error .binaryNotFound)
  else if !mkdirOk then ([], .error (.ioError "create_dir_all"))
  else
    let args := buildArgs binDir ffmpegInstalled opts
    if !spawnOk then
      ([Step.emit startingEvent, Step.spawn args], .error (.ioError "spawn"))
    else
      let lineSteps := (lines.filterMap classify).map Step.emit
      match exitResult with
      | none =>
        (Step.emit startingEvent :: Step.spawn args :: lineSteps,
          .error (.ioError "wait"))
      | some true =>
        (Step.emit startingEvent :: Step.spawn args ::
            (lineSteps ++ [Step.emit completedEvent]),
          .ok opts.output_dir)
      | some false =>
        (Step.emit startingEvent :: Step.spawn args :: lineSteps,
          .error (.downloadFailed "Download process failed"))

/-! ## Updater: artifact install (`updater.rs` 109–159) -/

/-- Rust `UpdaterError` from `updater.rs`. -/
inductive UpdaterError where
  | requestError (msg : String)
  | ioError (msg : String)
  | parseError
  | managerError (msg : String)
deriving DecidableEq, Repr

/-- Rust `DownloadProgressEvent` from `updater.rs` (percentage as `ℚ`). -/
structure DownloadProgressEvent where
  downloaded : Nat
  total : Option Nat
  percentage : Option ℚ
deriving DecidableEq, Repr

/-- The two files `download_ytdlp` can touch: the installed binary
(`dest_path`) and its `.tmp` sibling (`temp_path`). `none` = the file does
not exist; `some bs` = it exists with contents `bs` (bytes as `Nat`). -/
structure InstallFs where
  dest : Option (List Nat)
  temp : Option (List Nat)
deriving DecidableEq, Repr

/-- One iteration's observation of the byte stream in `download_ytdlp`:
a chunk received and written, a transport error from `stream.next()`, or an
I/O error from `file.write_all`. -/
inductive StreamItem where
  | chunk (data : List Nat)
  | recvErr
  | writeErr
deriving DecidableEq, Repr

/-- The chunk bytes, when the item is a successfully processed chunk. -/
def StreamItem.chunkData : StreamItem → Option (List Nat)
  | .chunk data => some data
  | _ => none

/-- Is this item a transport or write error? -/
def StreamItem.isErrItem : StreamItem → Bool
  | .chunk _ => false
  | _ => true

/-- The `while let Some(chunk) = stream.next().await` loop of
`download_ytdlp` (lines 131–141) followed by the rename (line 147): each
chunk is appended to the temporary file and a progress event is emitted; the
first error aborts with the filesystem as it stands; after the stream ends
the temporary file is renamed over the destination (`renameOk` = whether
`fs::rename` succeeds). -/
def streamLoop (total : Option Nat) (renameOk : Bool) :
    List StreamItem → Nat → InstallFs →
    InstallFs × List DownloadProgressEvent × Except UpdaterError Unit
  | [], _, fs =>
    if renameOk then ({ dest := fs.temp, temp := none }, [], .ok ())
    else (fs, [], .error (.ioError "rename"))
  | .chunk data :: rest, downloaded, fs =>
    let newDownloaded := downloaded + data.length
    let ev : DownloadProgressEvent :=
      ⟨newDownloaded, total,
        total.map (fun t => ((newDownloaded : ℚ) / (t : ℚ)) * 100)⟩
    let out := streamLoop total renameOk rest newDownloaded
      { fs with temp := some ((fs.temp.getD []) ++ data) }
    (out.1, ev :: out.2.1, out.2.2)
  | .recvErr :: _, _, fs => (fs, [], .error (.requestError "chunk"))
  | .writeErr :: _, _, fs => (fs, [], .error (.ioError "write_all"))

/-- Rust `Updater::download_ytdlp` (lines 109–159). `responseOk` models the HTTP
send succeeding, `createOk` models `File::create(&temp_path)` succeeding
(creating or truncating the temporary file), `total` the declared
`Content-Length`, `items` the observed stream. Returns the final state of
the two files, the emitted progress events in order, and the result. The
`chmod` after the rename does not change file contents and is not modelled. -/
def download_ytdlp (responseOk createOk renameOk : Bool) (total : Option Nat)
    (items : List StreamItem) (fs : InstallFs) :
    InstallFs × List DownloadProgressEvent × Except UpdaterError Unit :=
  if !responseOk then (fs, [], .error (.requestError "send"))
  else if !createOk then (fs, [], .error (.ioError "create"))
  else streamLoop total renameOk items 0 { fs with temp := some [] }

/-! ## Remaining definitions used by the statements -/

/-- The language of capture group 1, `\d+\.?\d*`: a nonempty digit string,
an optional dot, and a possibly empty digit string. -/
def NumShape (t : List Char) : Prop :=
  ∃ d1 od d2, t = d1 ++ od ++ d2 ∧ d1 ≠ [] ∧ (∀ c ∈ d1, c.isDigit = true) ∧
    (od = [] ∨ od = ['.']) ∧ (∀ c ∈ d2, c.isDigit = true)

/-- Predicate: `re` contains no capture group numbered 1. -/
def g1free : RE → Bool
  | .seq a b => g1free a && g1free b
  | .opt a => g1free a
  | .grp n a => decide (n ≠ 1) && g1free a
  | _ => true

/-! ## Matcher decomposition lemmas -/

theorem mem_matchAll_eps {s : List Char} {cp : Caps} {o : List Char × Caps}
    (h : o ∈ matchAll .eps s cp) : o = (s, cp) := by
  simpa [matchAll] using h

theorem mem_matchAll_ch {c : Char} {s : List Char} {cp : Caps}
    {o : List Char × Caps} (h : o ∈ matchAll (.ch c) s cp) :
    s = c :: o.1 ∧ o.2 = cp := by
  cases s with
  | nil => simp [matchAll] at h
  | cons x xs =>
    by_cases hx : x = c
    · simp [matchAll, hx] at h
      subst hx
      simp [h]
    · simp [matchAll, hx] at h

theorem mem_matchAll_cls {p : Char → Bool} {s : List Char} {cp : Caps}
    {o : List Char × Caps} (h : o ∈ matchAll (.cls p) s cp) :
    ∃ x, s = x :: o.1 ∧ p x = true ∧ o.2 = cp := by
  cases s with
  | nil => simp [matchAll] at h
  | cons x xs =>
    by_cases hx : p x
    · simp [matchAll, hx] at h
      exact ⟨x, by simp [h], hx, by simp [h]⟩
    · simp [matchAll, hx] at h

theorem mem_matchAll_seq {a b : RE} {s : List Char} {cp : Caps}
    {o : List Char × Caps} :
    o ∈ matchAll (.seq a b) s cp ↔
      ∃ m ∈ matchAll a s cp, o ∈ matchAll b m.1 m.2 := by
  rw [show matchAll (.seq a b) s cp
      = (matchAll a s cp).flatMap (fun m => matchAll b m.1 m.2) from rfl]
  exact List.mem_flatMap

theorem mem_matchAll_opt {a : RE} {s : List Char} {cp : Caps}
    {o : List Char × Caps} (h : o ∈ matchAll (.opt a) s cp) :
    o ∈ matchAll a s cp ∨ o = (s, cp) := by
  simpa [matchAll] using h

theorem mem_matchAll_star {p : Char → Bool} {s : List Char} {cp : Caps}
    {o : List Char × Caps} (h : o ∈ matchAll (.star p) s cp) :
    o.2 = cp ∧ ∃ ds, s = ds ++ o.1 ∧ ∀ c ∈ ds, p c = true := by
  simp only [matchAll, starOutcomes, List.mem_map, List.mem_reverse,
    List.mem_range] at h
  obtain ⟨k, hk, ho⟩ := h
  have hk' : k ≤ (s.takeWhile p).length := Nat.lt_succ_iff.mp hk
  refine ⟨by simp [← ho], s.take k, ?_, ?_⟩
  · rw [← ho]
    exact (List.take_append_drop k s).symm
  · intro c hc
    have htake : s.take k = (s.takeWhile p).take k := by
      conv_lhs => rw [← List.takeWhile_append_dropWhile (p := p) (l := s)]
      rw [List.take_append_of_le_length hk']
    rw [htake] at hc
    exact List.mem_takeWhile_imp (List.take_subset _ _ hc)

theorem mem_matchAll_grp {n : Nat} {a : RE} {s : List Char} {cp : Caps}
    {o : List Char × Caps} (h : o ∈ matchAll (.grp n a) s cp) :
    ∃ m ∈ matchAll a s cp,
      o.1 = m.1 ∧ o.2 = setCap n (s.take (s.length - m.1.length)) m.2 := by
  simp only [matchAll, List.mem_map] at h
  obtain ⟨m, hm, ho⟩ := h
  exact ⟨m, hm, by simp [← ho], by simp [← ho]⟩

theorem mem_matchAll_lits {l s : List Char} {cp : Caps}
    {o : List Char × Caps} (h : o ∈ matchAll (litsRE l) s cp) :
    s = l ++ o.1 ∧ o.2 = cp := by
  induction l generalizing s cp with
  | nil => simp [mem_matchAll_eps h]
  | cons c cs ih =>
    obtain ⟨m, hm, ho⟩ := mem_matchAll_seq.mp h
    obtain ⟨hs, hcp⟩ := mem_matchAll_ch hm
    obtain ⟨hs', hcp'⟩ := ih ho
    subst hcp
    exact ⟨by simp [hs, hs'], hcp'⟩

theorem mem_matchAll_plus {p : Char → Bool} {s : List Char} {cp : Caps}
    {o : List Char × Caps} (h : o ∈ matchAll (plusC p) s cp) :
    o.2 = cp ∧ ∃ ds, ds ≠ [] ∧ (∀ c ∈ ds, p c = true) ∧ s = ds ++ o.1 := by
  obtain ⟨m, hm, ho⟩ := mem_matchAll_seq.mp h
  obtain ⟨x, hs, hx, hcp⟩ := mem_matchAll_cls hm
  obtain ⟨hcp', ds, hds, hall⟩ := mem_matchAll_star ho
  subst hcp
  refine ⟨hcp', x :: ds, by simp, ?_, by simp [hs, hds]⟩
  intro c hc
  rcases List.mem_cons.mp hc with hc | hc
  · exact hc ▸ hx
  · exact hall c hc

theorem setCap_g1_of_ne {n : Nat} (hn : n ≠ 1) (t : List Char) (c : Caps) :
    (setCap n t c).g1 = c.g1 := by
  simp only [setCap]
  split
  · omega
  · split <;> [rfl; skip]
    split <;> [rfl; skip]
    split <;> rfl

theorem g1_preserved {re : RE} (hfree : g1free re = true) :
    ∀ {s : List Char} {cp : Caps} {o : List Char × Caps},
      o ∈ matchAll re s cp → o.2.g1 = cp.g1 := by
  induction re with
  | eps => intro s cp o h; simp [mem_matchAll_eps h]
  | ch c => intro s cp o h; simp [(mem_matchAll_ch h).2]
  | cls p =>
    intro s cp o h
    obtain ⟨x, -, -, hcp⟩ := mem_matchAll_cls h
    simp [hcp]
  | seq a b iha ihb =>
    intro s cp o h
    simp only [g1free, Bool.and_eq_true] at hfree
    obtain ⟨m, hm, ho⟩ := mem_matchAll_seq.mp h
    rw [ihb hfree.2 ho, iha hfree.1 hm]
  | opt a iha =>
    intro s cp o h
    simp only [g1free] at hfree
    rcases mem_matchAll_opt h with h | h
    · exact iha hfree h
    · simp [h]
  | star p => intro s cp o h; simp [(mem_matchAll_star h).1]
  | grp n a iha =>
    intro s cp o h
    simp only [g1free, Bool.and_eq_true, decide_eq_true_eq] at hfree
    obtain ⟨m, hm, -, ho⟩ := mem_matchAll_grp h
    rw [ho, setCap_g1_of_ne hfree.1, iha hfree.2 hm]

theorem numRE_mem {s : List Char} {cp : Caps} {o : List Char × Caps}
    (h : o ∈ matchAll numRE s cp) :
    o.2 = cp ∧ ∃ t, s = t ++ o.1 ∧ NumShape t := by
  obtain ⟨m, hm, ho⟩ := mem_matchAll_seq.mp h
  obtain ⟨hcp1, d1, hd1ne, hd1dig, hs1⟩ := mem_matchAll_plus hm
  obtain ⟨m2, hm2, ho2⟩ := mem_matchAll_seq.mp ho
  have hdot : (∃ r2, m.1 = '.' :: r2 ∧ m2 = (r2, m.2)) ∨ m2 = (m.1, m.2) := by
    rcases mem_matchAll_opt hm2 with h2 | h2
    · obtain ⟨hs2, hcp2⟩ := mem_matchAll_ch h2
      exact Or.inl ⟨m2.1, hs2, by rw [← hcp2]⟩
    · exact Or.inr h2
  obtain ⟨hcp3, d2, hs3, hd2dig⟩ := mem_matchAll_star ho2
  rcases hdot with ⟨r2, hr2, hm2eq⟩ | hm2eq
  · have hr2' : r2 = d2 ++ o.1 := by rw [hm2eq] at hs3; exact hs3
    refine ⟨by rw [hcp3, hm2eq]; exact hcp1,
      d1 ++ ['.'] ++ d2, ?_, d1, ['.'], d2, rfl, hd1ne, hd1dig, Or.inr rfl,
      hd2dig⟩
    rw [hs1, hr2, hr2']
    simp
  · have hm1' : m.1 = d2 ++ o.1 := by rw [hm2eq] at hs3; exact hs3
    refine ⟨by rw [hcp3, hm2eq]; exact hcp1,
      d1 ++ [] ++ d2, ?_, d1, [], d2, rfl, hd1ne, hd1dig, Or.inl rfl,
      hd2dig⟩
    rw [hs1, hm1']
    simp

theorem progressRE_g1 {s : List Char} {cp : Caps} {o : List Char × Caps}
    (h : o ∈ matchAll progressRE s cp) :
    ∃ t, o.2.g1 = some t ∧ NumShape t := by
  obtain ⟨m1, hm1, h1⟩ := mem_matchAll_seq.mp h
  obtain ⟨m2, hm2, h2⟩ := mem_matchAll_seq.mp h1
  obtain ⟨m3, hm3, h3⟩ := mem_matchAll_seq.mp h2
  obtain ⟨m4, hm4, hfst, hsnd⟩ := mem_matchAll_grp hm3
  obtain ⟨hcp4, t, hsplit, hshape⟩ := numRE_mem hm4
  have htail : g1free tailRE = true := by rfl
  have hg1 : o.2.g1 = m3.2.g1 := g1_preserved htail h3
  have htake : m2.1.take (m2.1.length - m4.1.length) = t := by
    rw [hsplit, List.length_append, Nat.add_sub_cancel]
    exact List.take_left t m4.1
  refine ⟨t, ?_, hshape⟩
  rw [hg1, hsnd, htake]
  simp [setCap]

theorem findCaptures_mem {re : RE} {s : List Char} {cp : Caps}
    (h : findCaptures re s = some cp) :
    ∃ t r, (r, cp) ∈ matchAll re t ({} : Caps) := by
  induction s with
  | nil =>
    rw [findCaptures] at h
    cases hm : matchAll re [] ({} : Caps) with
    | nil => rw [hm] at h; exact absurd h (by simp)
    | cons o tl =>
      rw [hm] at h
      simp only [Option.some.injEq] at h
      exact ⟨[], o.1, by rw [hm, ← h]; exact List.mem_cons_self _ _⟩
  | cons c cs ih =>
    rw [findCaptures] at h
    cases hm : matchAll re (c :: cs) ({} : Caps) with
    | nil =>
      rw [hm] at h
      exact ih h
    | cons o tl =>
      rw [hm] at h
      simp only [Option.some.injEq] at h
      exact ⟨c :: cs, o.1, by rw [hm, ← h]; exact List.mem_cons_self _ _⟩

theorem takeWhile_all_eq {p : Char → Bool} {l : List Char}
    (h : ∀ c ∈ l, p c = true) : l.takeWhile p = l ∧ l.dropWhile p = [] := by
  induction l with
  | nil => simp
  | cons c cs ih =>
    have hc : p c = true := h c (List.mem_cons_self _ _)
    have := ih (fun x hx => h x (List.mem_cons_of_mem _ hx))
    simp [List.takeWhile_cons, List.dropWhile_cons, hc, this.1, this.2]

theorem takeWhile_append_stop {p : Char → Bool} {a b : List Char} {x : Char}
    (ha : ∀ c ∈ a, p c = true) (hx : p x = false) :
    (a ++ x :: b).takeWhile p = a ∧ (a ++ x :: b).dropWhile p = x :: b := by
  induction a with
  | nil => simp [List.takeWhile_cons, List.dropWhile_cons, hx]
  | cons c cs ih =>
    have hc : p c = true := ha c (List.mem_cons_self _ _)
    have := ih (fun y hy => ha y (List.mem_cons_of_mem _ hy))
    simp [List.takeWhile_cons, List.dropWhile_cons, hc, this.1, this.2]

theorem parseF64_shape {t : List Char} (h : NumShape t) :
    ∃ q : ℚ, parseF64 t = some q ∧ 0 ≤ q := by
  obtain ⟨d1, od, d2, rfl, hd1ne, hd1, hod, hd2⟩ := h
  rcases hod with rfl | rfl
  · have hall : ∀ c ∈ d1 ++ [] ++ d2, c.isDigit = true := by
      intro c hc
      simp only [List.append_nil, List.mem_append] at hc
      rcases hc with hc | hc
      · exact hd1 c hc
      · exact hd2 c hc
    obtain ⟨htw, hdw⟩ := takeWhile_all_eq hall
    have hne : d1 ++ [] ++ d2 ≠ [] := by
      simp only [List.append_nil]
      exact fun hcon => hd1ne (List.append_eq_nil.mp hcon).1
    refine ⟨((digitsVal (d1 ++ [] ++ d2) : ℕ) : ℚ), ?_, by positivity⟩
    rw [parseF64]
    simp only [htw, hdw, if_neg hne]
  · have hsplit : d1 ++ ['.'] ++ d2 = d1 ++ '.' :: d2 := by simp
    rw [hsplit]
    have hdot : ('.' : Char).isDigit = false := by decide
    obtain ⟨htw, hdw⟩ := takeWhile_append_stop hd1 hdot (b := d2)
    refine ⟨((digitsVal d1 : ℕ) : ℚ)
        + ((digitsVal d2 : ℕ) : ℚ) / (10 : ℚ) ^ d2.length, ?_, by positivity⟩
    rw [parseF64]
    simp only [htw, hdw, if_neg hd1ne, List.all_eq_true.mpr hd2, if_pos]

/-! ## Claim theorems -/

/-- C1, counterexample: with the binary installed but its `--version` query
failing (`current_version = None`) and the feed reporting `"2024.01.01"`,
`check_update_status` sets `update_available = true`, whereas the claim
demands `false` whenever the tool is installed but its version could not be
determined. -/
theorem c1_counterexample :
    (check_update_status true none (some ⟨"2024.01.01", "", ""⟩)).installed = true
    ∧ (check_update_status true none (some ⟨"2024.01.01", "", ""⟩)).current_version
        = none
    ∧ (check_update_status true none (some ⟨"2024.01.01", "", ""⟩)).latest_version
        = some "2024.01.01"
    ∧ (check_update_status true none (some ⟨"2024.01.01", "", ""⟩)).update_available
        = true :=
  ⟨rfl, rfl, rfl, rfl⟩

/-- C1, amended: `update_available` is true exactly when both versions are
known and differ, or when the current version is unknown (tool not
installed, or installed but its version undeterminable) while a latest
version is known; otherwise it is false. -/
theorem c1_update_available_characterization (installed : Bool)
    (versionResult : Option String) (latestResult : Option VersionInfo) :
    (check_update_status installed versionResult latestResult).update_available
        = true ↔
      ((∃ c l,
          (check_update_status installed versionResult latestResult).current_version
              = some c
          ∧ (check_update_status installed versionResult latestResult).latest_version
              = some l
          ∧ c ≠ l)
        ∨ ((check_update_status installed versionResult latestResult).current_version
              = none
          ∧ ∃ l,
            (check_update_status installed versionResult latestResult).latest_version
                = some l)) := by
  cases installed <;> cases versionResult <;> cases latestResult <;>
    simp [check_update_status, bne_iff_ne]

/-- C2, counterexample: the line `"[download] 150.5% of ~10MiB"` matches the
progress pattern and is classified as `downloading`, but its parsed
percentage is `150.5 ∉ [0,100]`; and the line
`"[download] 50.0% of ~10MiB Extracting"` matches the progress pattern yet
is classified as `extracting` (the extraction-marker test fires first), not
`downloading`. -/
theorem c2_counterexample :
    (classify "[download] 150.5% of ~10MiB"
        = some { status := "downloading"
                 percentage := some (((digitsVal ['1', '5', '0'] : ℕ) : ℚ)
                   + ((digitsVal ['5'] : ℕ) : ℚ) / (10 : ℚ) ^ (1 : ℕ))
                 speed := none
                 eta := none
                 filename := none
                 total_bytes := none
                 downloaded_bytes := none }
      ∧ ¬ (((digitsVal ['1', '5', '0'] : ℕ) : ℚ)
            + ((digitsVal ['5'] : ℕ) : ℚ) / (10 : ℚ) ^ (1 : ℕ) ≤ 100))
    ∧ (findCaptures progressRE "[download] 50.0% of ~10MiB Extracting".data).isSome
        = true
    ∧ classify "[download] 50.0% of ~10MiB Extracting" = some extractingEvent := by
  refine ⟨⟨rfl, ?_⟩, rfl, rfl⟩
  have h1 : digitsVal ['1', '5', '0'] = 150 := rfl
  have h2 : digitsVal ['5'] = 5 := rfl
  rw [h1, h2]
  norm_num

/-- C2, amended: for every line that the extraction-marker test does not
claim first and on which the progress regex matches, `classify` produces a
`downloading` event whose percentage is successfully parsed from the
matched numeral — a nonnegative rational, possibly exceeding 100 — with the
speed and ETA capture groups passed through whether present or absent; the
parse never fails on a matched numeral. -/
theorem c2_progress_classify (line : String) (caps : Caps)
    (hmark : extractMarkerB line.data = false)
    (hfind : findCaptures progressRE line.data = some caps) :
    ∃ q : ℚ, 0 ≤ q ∧
      classify line
        = some { status := "downloading"
                 percentage := some q
                 speed := caps.g3.map (fun l => String.mk l)
                 eta := caps.g4.map (fun l => String.mk l)
                 filename := none
                 total_bytes := none
                 downloaded_bytes := none } := by
  obtain ⟨t, r, hmem⟩ := findCaptures_mem hfind
  obtain ⟨t1, hg1, hshape⟩ := progressRE_g1 hmem
  have hg1' : caps.g1 = some t1 := hg1
  obtain ⟨q, hq, hq0⟩ := parseF64_shape hshape
  refine ⟨q, hq0, ?_⟩
  simp [classify, hmark, hfind, hg1', hq]

/-- C2, witness at a full progress line with both optional groups present. -/
theorem c2_progress_classify_witness :
    ∃ q : ℚ, 0 ≤ q ∧
      classify "[download]  42.5% of ~3.40MiB at 1.20MiB/s ETA 00:12"
        = some { status := "downloading"
                 percentage := some q
                 speed := (some "1.20MiB/s".data).map (fun l => String.mk l)
                 eta := (some "00:12".data).map (fun l => String.mk l)
                 filename := none
                 total_bytes := none
                 downloaded_bytes := none } :=
  c2_progress_classify "[download]  42.5% of ~3.40MiB at 1.20MiB/s ETA 00:12"
    ⟨some "42.5".data, some "3.40MiB".data, some "1.20MiB/s".data,
      some "00:12".data⟩
    rfl rfl

/-- C8: the classifier is a total function by construction (`classify` is a
Lean function on all of `String`), and on any line on which no recognized
marker fires — not an extraction marker, no progress-pattern match, no
destination marker, no merger or audio-extraction marker — it produces no
event. -/
theorem c8_unrecognized_line_no_event (line : String)
    (h1 : extractMarkerB line.data = false)
    (h2 : findCaptures progressRE line.data = none)
    (h3 : containsCL line.data destMarker = false)
    (h4 : containsCL line.data "[Merger]".data = false)
    (h5 : containsCL line.data "[ExtractAudio]".data = false) :
    classify line = none := by
  simp [classify, h1, h2, h3, h4, h5]

/-- C8, witness on an ordinary diagnostic line. -/
theorem c8_unrecognized_line_no_event_witness :
    classify "WARNING: unable to obtain file audio codec with ffprobe" = none :=
  c8_unrecognized_line_no_event
    "WARNING: unable to obtain file audio codec with ffprobe"
    rfl rfl rfl rfl rfl

theorem filterMap_option_map {α β : Type} (f : α → β) (l : List (Option α)) :
    l.filterMap (fun o => o.map f) = (l.filterMap id).map f := by
  induction l with
  | nil => rfl
  | cons o t ih => cases o <;> simp [ih]

/-- C6: on two or more stdout lines, `get_video_info` returns a playlist
whose entries are exactly the successfully parsed lines in source order
(malformed lines silently skipped) and whose `playlist_count` equals the
number of parsed lines; the call never fails in this branch. -/
theorem c6_multiline_playlist (stderr : String) (lines : List (Option Json))
    (h : 2 ≤ lines.length) :
    getVideoInfo true true stderr lines
      = .ok { id := "playlist"
              title := "Playlist"
              duration := none
              thumbnail := none
              description := none
              uploader := none
              is_playlist := true
              playlist_count := some (lines.filterMap id).length
              entries := some ((lines.filterMap id).map mkEntryMulti) } := by
  match lines with
  | [] => simp at h
  | [a] => simp at h
  | a :: b :: t =>
    simp [getVideoInfo, filterMap_option_map]

/-- C6, witness: three lines of which the middle one fails to parse. -/
theorem c6_multiline_playlist_witness :
    getVideoInfo true true ""
        [some (Json.obj [("id", Json.str "a"), ("title", Json.str "T")]), none,
          some (Json.obj [])]
      = .ok { id := "playlist"
              title := "Playlist"
              duration := none
              thumbnail := none
              description := none
              uploader := none
              is_playlist := true
              playlist_count := some 2
              entries := some [⟨"a", "T", none, none⟩, ⟨"", "Unknown", none, none⟩] } := by
  have h := c6_multiline_playlist ""
    [some (Json.obj [("id", Json.str "a"), ("title", Json.str "T")]), none,
      some (Json.obj [])] (by norm_num)
  exact h

/-- C9: in the multi-line playlist branch, a parsed line with no string
`"id"` field still yields an entry (with `id = ""`, and `title = "Unknown"`
when the title is also missing) and is counted in `playlist_count`; in the
single-line playlist-reference branch, an embedded entry with no string
`"id"` is dropped instead. -/
theorem c9_missing_id_divergence (e : Json) (h : (e.idx "id").asStr = none) :
    getVideoInfo true true "" [some e, some e]
        = .ok { id := "playlist"
                title := "Playlist"
                duration := none
                thumbnail := none
                description := none
                uploader := none
                is_playlist := true
                playlist_count := some 2
                entries := some [mkEntryMulti e, mkEntryMulti e] }
    ∧ (mkEntryMulti e).id = ""
    ∧ ((e.idx "title").asStr = none → (mkEntryMulti e).title = "Unknown")
    ∧ getVideoInfo true true ""
        [some (Json.obj [("_type", Json.str "playlist"),
          ("entries", Json.arr [e])])]
        = .ok { id := "playlist"
                title := "Playlist"
                duration := none
                thumbnail := none
                description := none
                uploader := none
                is_playlist := true
                playlist_count := some 0
                entries := some [] } := by
  refine ⟨?_, ?_, ?_, ?_⟩
  · simp [getVideoInfo]
  · simp [mkEntryMulti, h]
  · intro ht
    simp [mkEntryMulti, ht]
  · have h' := h
    simp only [Json.idx, Json.asStr] at h'
    simp [getVideoInfo, singleLineInfo, Json.getKey, Json.idx, Json.asStr,
      Json.asArr, mkEntryFromRef, List.find?, h, h']

/-- C9, witness at the empty JSON object (no `"id"`, no `"title"`). -/
theorem c9_missing_id_divergence_witness :
    getVideoInfo true true "" [some (Json.obj []), some (Json.obj [])]
        = .ok { id := "playlist"
                title := "Playlist"
                duration := none
                thumbnail := none
                description := none
                uploader := none
                is_playlist := true
                playlist_count := some 2
                entries := some [mkEntryMulti (Json.obj []),
                  mkEntryMulti (Json.obj [])] }
    ∧ (mkEntryMulti (Json.obj [])).id = ""
    ∧ (((Json.obj []).idx "title").asStr = none
        → (mkEntryMulti (Json.obj [])).title = "Unknown")
    ∧ getVideoInfo true true ""
        [some (Json.obj [("_type", Json.str "playlist"),
          ("entries", Json.arr [Json.obj []])])]
        = .ok { id := "playlist"
                title := "Playlist"
                duration := none
                thumbnail := none
                description := none
                uploader := none
                is_playlist := true
                playlist_count := some 0
                entries := some [] } :=
  c9_missing_id_divergence (Json.obj []) rfl

/-- C10: every `VideoInfo` returned by `get_video_info` satisfies the
invariant that `is_playlist = true` implies `entries = Some es` with
`playlist_count = Some es.length`, and `is_playlist = false` implies both
`playlist_count` and `entries` are `None`. -/
theorem c10_playlist_invariant (installed exitOk : Bool) (stderr : String)
    (lines : List (Option Json)) (vi : VideoInfo)
    (h : getVideoInfo installed exitOk stderr lines = .ok vi) :
    (vi.is_playlist = true
      → ∃ es, vi.entries = some es ∧ vi.playlist_count = some es.length)
    ∧ (vi.is_playlist = false
      → vi.playlist_count = none ∧ vi.entries = none) := by
  cases installed with
  | false => simp [getVideoInfo] at h
  | true =>
    cases exitOk with
    | false => simp [getVideoInfo] at h
    | true =>
      match lines with
      | [] => simp [getVideoInfo] at h
      | [o] =>
        simp only [getVideoInfo] at h
        cases o with
        | none => simp [singleLineInfo] at h
        | some j =>
          simp only [singleLineInfo] at h
          by_cases hty : ((j.getKey "_type").bind Json.asStr == some "playlist") = true
          · rw [if_pos hty] at h
            obtain rfl := (Except.ok.injEq _ _).mp h.symm
            refine ⟨fun _ => ⟨_, rfl, rfl⟩, fun hf => by simp at hf⟩
          · rw [if_neg hty] at h
            obtain rfl := (Except.ok.injEq _ _).mp h.symm
            exact ⟨fun ht => by simp at ht, fun _ => ⟨rfl, rfl⟩⟩
      | a :: b :: t =>
        simp only [getVideoInfo] at h
        obtain rfl := (Except.ok.injEq _ _).mp h.symm
        refine ⟨fun _ => ⟨_, rfl, rfl⟩, fun hf => by simp at hf⟩

/-- C10, witness at a single non-playlist JSON line. -/
theorem c10_playlist_invariant_witness :
    (VideoInfo.is_playlist ⟨"", "Unknown", none, none, none, none, false, none, none⟩
        = true
      → ∃ es,
          VideoInfo.entries ⟨"", "Unknown", none, none, none, none, false, none, none⟩
            = some es
          ∧ VideoInfo.playlist_count
              ⟨"", "Unknown", none, none, none, none, false, none, none⟩
            = some es.length)
    ∧ (VideoInfo.is_playlist ⟨"", "Unknown", none, none, none, none, false, none, none⟩
        = false
      → VideoInfo.playlist_count
            ⟨"", "Unknown", none, none, none, none, false, none, none⟩
          = none
        ∧ VideoInfo.entries ⟨"", "Unknown", none, none, none, none, false, none, none⟩
          = none) :=
  c10_playlist_invariant true true "" [some (Json.obj [])]
    ⟨"", "Unknown", none, none, none, none, false, none, none⟩ rfl

/-- C3: in every run with the binary installed and the output directory
available, the only event emitted before the spawn of the child process is
one synthetic `starting` event with percentage 0; once the stream has been
read, a zero exit status produces exactly the classified line events
followed by one final `completed` event (percentage 100) and returns the
configured output directory, while a nonzero exit status produces a
`DownloadFailed` error with no event after the classified line events. -/
theorem c3_start_and_exit_protocol (mkdirOk spawnOk ffi : Bool) (bd : String)
    (opts : DownloadOptions) (lines : List String) (exitRes : Option Bool)
    (hmk : mkdirOk = true) :
    (download true mkdirOk spawnOk ffi bd opts lines exitRes).1.takeWhile
        (fun s => ! s.isSpawnStep) = [Step.emit startingEvent]
    ∧ (spawnOk = true → exitRes = some true →
        (download true mkdirOk spawnOk ffi bd opts lines exitRes).2
            = .ok opts.output_dir
        ∧ (download true mkdirOk spawnOk ffi bd opts lines exitRes).1
            = Step.emit startingEvent :: Step.spawn (buildArgs bd ffi opts)
              :: ((lines.filterMap classify).map Step.emit
                  ++ [Step.emit completedEvent]))
    ∧ (spawnOk = true → exitRes = some false →
        (download true mkdirOk spawnOk ffi bd opts lines exitRes).2
            = .error (.downloadFailed "Download process failed")
        ∧ (download true mkdirOk spawnOk ffi bd opts lines exitRes).1
            = Step.emit startingEvent :: Step.spawn (buildArgs bd ffi opts)
              :: (lines.filterMap classify).map Step.emit) := by
  subst hmk
  refine ⟨?_, ?_, ?_⟩
  · cases spawnOk with
    | false => simp [download, Step.isSpawnStep]
    | true =>
      rcases exitRes with _ | b
      · simp [download, Step.isSpawnStep]
      · cases b <;> simp [download, Step.isSpawnStep]
  · intro hs he
    subst hs
    subst he
    exact ⟨rfl, rfl⟩
  · intro hs he
    subst hs
    subst he
    exact ⟨rfl, rfl⟩

/-- C3, witness: a successful run over two lines (one progress line, one
unrecognized), and the shape of its trace. -/
theorem c3_start_and_exit_protocol_witness :
    (download true true true false "/bin"
        ⟨"https://v", "/out", .video .p720 .mp4, false, none⟩
        ["[download] 10.0% of ~1MiB", "random noise"] (some true)).1.takeWhile
        (fun s => ! s.isSpawnStep) = [Step.emit startingEvent]
    ∧ (download true true true false "/bin"
        ⟨"https://v", "/out", .video .p720 .mp4, false, none⟩
        ["[download] 10.0% of ~1MiB", "random noise"] (some true)).2
        = .ok "/out" := by
  have h := c3_start_and_exit_protocol true true false "/bin"
    ⟨"https://v", "/out", .video .p720 .mp4, false, none⟩
    ["[download] 10.0% of ~1MiB", "random noise"] (some true) rfl
  exact ⟨h.1, (h.2.1 rfl rfl).1⟩

/-- C4: a download request while the binary is not installed fails with
`BinaryNotFound` and produces an empty observable trace — no spawn step and
no progress event, synthetic or otherwise. -/
theorem c4_not_installed (mkdirOk spawnOk ffi : Bool) (bd : String)
    (opts : DownloadOptions) (lines : List String) (exitRes : Option Bool) :
    download false mkdirOk spawnOk ffi bd opts lines exitRes
      = ([], .error .binaryNotFound) := by
  simp [download]

/-- Helper: `outputTemplate` always ends in the 18-character template
suffix, so it is never the two-character string `"-f"`. -/
theorem outputTemplate_ne_f (d : String) : outputTemplate d ≠ "-f" := by
  intro hcon
  have hlen := congrArg String.length hcon
  rw [outputTemplate, String.length_append] at hlen
  have h18 : "/%(title)s.%(ext)s".length = 18 := rfl
  have h2 : "-f".length = 2 := rfl
  omega

/-- Helper: the ffmpeg path ends in `/ffmpeg`, so it is never `"-f"`. -/
theorem ffmpegPath_ne_f (bd : String) : getFfmpegPath bd ≠ "-f" := by
  intro hcon
  have hlen := congrArg String.length hcon
  rw [getFfmpegPath, String.length_append] at hlen
  have h7 : "/ffmpeg".length = 7 := rfl
  have h2 : "-f".length = 2 := rfl
  omega

/-- Helper: `Char.ofNat (48 + k)` is a decimal digit for `k < 10`. -/
theorem char_ofNat_digit (k : Nat) (hk : k < 10) :
    (Char.ofNat (48 + k)).isDigit = true := by
  interval_cases k <;> decide

/-- Helper: every character printed by `natDigitsCh` is a decimal digit. -/
theorem natDigitsCh_all_digit (fuel : Nat) :
    ∀ n, ∀ c ∈ natDigitsCh fuel n, c.isDigit = true := by
  induction fuel with
  | zero => intro n c hc; simp [natDigitsCh] at hc
  | succ fuel ih =>
    intro n c hc
    rw [natDigitsCh] at hc
    by_cases h10 : n < 10
    · rw [if_pos h10] at hc
      simp at hc
      subst hc
      exact char_ofNat_digit n h10
    · rw [if_neg h10] at hc
      rcases List.mem_append.mp hc with hc | hc
      · exact ih _ c hc
      · simp at hc
        subst hc
        exact char_ofNat_digit _ (Nat.mod_lt _ (by norm_num))

/-- Helper: decimal renderings of playlist indices contain no dash. -/
theorem dash_not_mem_joinComma (l : List Nat) : '-' ∉ (joinComma l).data := by
  induction l with
  | nil => simp [joinComma]
  | cons n t ih =>
    cases t with
    | nil =>
      intro hc
      have := natDigitsCh_all_digit (n + 1) n '-' hc
      simp at this
    | cons m t' =>
      intro hc
      rw [joinComma] at hc
      have hdata : (natRepr n ++ "," ++ joinComma (m :: t')).data
          = (natRepr n).data ++ ",".data ++ (joinComma (m :: t')).data := by
        cases hn : natRepr n
        cases hj : joinComma (m :: t')
        rfl
      rw [hdata] at hc
      rcases List.mem_append.mp hc with hc | hc
      · rcases List.mem_append.mp hc with hc | hc
        · have := natDigitsCh_all_digit (n + 1) n '-' hc
          simp at this
        · simp at hc
      · exact ih hc

/-- Helper: the comma-joined playlist index list is never `"-f"`. -/
theorem joinComma_ne_f (l : List Nat) : joinComma l ≠ "-f" := by
  intro hcon
  exact dash_not_mem_joinComma l (hcon ▸ (by decide : '-' ∈ "-f".data))

/-- Helper: in audio mode the built argument vector never contains `"-f"`
(provided the caller's URL is not itself that string). -/
theorem f_not_mem_audio_args (bd : String) (ffi : Bool)
    (opts : DownloadOptions) (fmt : AudioFormat)
    (h2 : opts.mode = .audio fmt) (h3 : opts.url ≠ "-f") :
    "-f" ∉ buildArgs bd ffi opts := by
  obtain ⟨url, odir, mode, embed, items⟩ := opts
  dsimp only at h2 h3
  subst h2
  intro hmem
  have n1 : ("-f" = outputTemplate odir) = False :=
    eq_false fun hh => outputTemplate_ne_f odir hh.symm
  have n2 : ("-f" = getFfmpegPath bd) = False :=
    eq_false fun hh => ffmpegPath_ne_f bd hh.symm
  have n3 : ("-f" = url) = False := eq_false fun hh => h3 hh.symm
  have n4 : ∀ l : List Nat, ("-f" = joinComma l) = False :=
    fun l => eq_false fun hh => joinComma_ne_f l hh.symm
  have n5 : ("-f" = fmt.toArg) = False := by
    cases fmt <;> simp [AudioFormat.toArg]
  cases embed <;> cases ffi <;> rcases items with _ | its <;>
    simp [buildArgs, n1, n2, n3, n4, n5] at hmem

/-- C7: for a `VideoMode{quality="720p", container="mp4"}` request the
argument vector contains the consecutive pair `-f bv*[height<=720]+ba/b`
(the selector constraining height to at most 720) and the consecutive pair
`--merge-output-format mp4`; for an `AudioMode{format="flac"}` request it
contains the consecutive triple `-x --audio-format flac` and no `-f`
argument at all. -/
theorem c7_mode_args (opts1 opts2 : DownloadOptions) (ffi1 ffi2 : Bool)
    (bd1 bd2 : String)
    (h1 : opts1.mode = .video .p720 .mp4)
    (h2 : opts2.mode = .audio .flac)
    (h3 : opts2.url ≠ "-f") :
    (∃ l r, buildArgs bd1 ffi1 opts1
        = l ++ ["-f", "bv*[height<=720]+ba/b"] ++ r)
    ∧ (∃ l r, buildArgs bd1 ffi1 opts1
        = l ++ ["--merge-output-format", "mp4"] ++ r)
    ∧ (∃ l r, buildArgs bd2 ffi2 opts2
        = l ++ ["-x", "--audio-format", "flac"] ++ r)
    ∧ "-f" ∉ buildArgs bd2 ffi2 opts2 := by
  refine ⟨?_, ?_, ?_, f_not_mem_audio_args bd2 ffi2 opts2 .flac h2 h3⟩
  · refine ⟨["--progress", "--newline", "--force-progress", "-o",
      outputTemplate opts1.output_dir],
      ["--merge-output-format", "mp4"]
        ++ (if opts1.embed_subs then ["--write-subs", "--embed-subs"] else [])
        ++ (match opts1.playlist_items with
            | some items => ["--playlist-items", joinComma items]
            | none => [])
        ++ (if ffi1 then ["--ffmpeg-location", getFfmpegPath bd1] else [])
        ++ [opts1.url], ?_⟩
    simp [buildArgs, h1, VideoQuality.to_format_string, VideoContainer.toArg]
  · refine ⟨["--progress", "--newline", "--force-progress", "-o",
      outputTemplate opts1.output_dir, "-f", "bv*[height<=720]+ba/b"],
      (if opts1.embed_subs then ["--write-subs", "--embed-subs"] else [])
        ++ (match opts1.playlist_items with
            | some items => ["--playlist-items", joinComma items]
            | none => [])
        ++ (if ffi1 then ["--ffmpeg-location", getFfmpegPath bd1] else [])
        ++ [opts1.url], ?_⟩
    simp [buildArgs, h1, VideoQuality.to_format_string, VideoContainer.toArg]
  · refine ⟨["--progress", "--newline", "--force-progress", "-o",
      outputTemplate opts2.output_dir],
      (if opts2.embed_subs then ["--write-subs", "--embed-subs"] else [])
        ++ (match opts2.playlist_items with
            | some items => ["--playlist-items", joinComma items]
            | none => [])
        ++ (if ffi2 then ["--ffmpeg-location", getFfmpegPath bd2] else [])
        ++ [opts2.url], ?_⟩
    simp [buildArgs, h2, AudioFormat.toArg]

/-- C7, witness at concrete video and audio requests. -/
theorem c7_mode_args_witness :
    (∃ l r, buildArgs "/bin" true ⟨"https://v", "/out", .video .p720 .mp4, false, none⟩
        = l ++ ["-f", "bv*[height<=720]+ba/b"] ++ r)
    ∧ (∃ l r, buildArgs "/bin" true ⟨"https://v", "/out", .video .p720 .mp4, false, none⟩
        = l ++ ["--merge-output-format", "mp4"] ++ r)
    ∧ (∃ l r, buildArgs "/bin" false ⟨"https://a", "/out", .audio .flac, true, some [1, 3]⟩
        = l ++ ["-x", "--audio-format", "flac"] ++ r)
    ∧ "-f" ∉ buildArgs "/bin" false ⟨"https://a", "/out", .audio .flac, true, some [1, 3]⟩ :=
  c7_mode_args ⟨"https://v", "/out", .video .p720 .mp4, false, none⟩
    ⟨"https://a", "/out", .audio .flac, true, some [1, 3]⟩ true false "/bin" "/bin"
    rfl rfl (by decide)

/-- Helper: when the stream contains an error, the loop stops at the first
one, the destination file is untouched, the temporary file (already created)
still exists, and an error is returned. -/
theorem streamLoop_err (total : Option Nat) (renOk : Bool)
    (items : List StreamItem) (dl : Nat) (fs : InstallFs)
    (herr : items.any StreamItem.isErrItem = true) :
    (streamLoop total renOk items dl fs).1.dest = fs.dest
    ∧ (fs.temp.isSome = true
        → ((streamLoop total renOk items dl fs).1.temp).isSome = true)
    ∧ ∃ e, (streamLoop total renOk items dl fs).2.2 = .error e := by
  induction items generalizing dl fs with
  | nil => simp at herr
  | cons it rest ih =>
    cases it with
    | chunk d =>
      have herr' : rest.any StreamItem.isErrItem = true := by
        simpa [StreamItem.isErrItem] using herr
      have h := ih (dl + d.length)
        { fs with temp := some ((fs.temp.getD []) ++ d) } herr'
      refine ⟨h.1, fun _ => h.2.1 (by simp), h.2.2⟩
    | recvErr => exact ⟨rfl, fun ht => ht, ⟨.requestError "chunk", rfl⟩⟩
    | writeErr => exact ⟨rfl, fun ht => ht, ⟨.ioError "write_all", rfl⟩⟩

/-- Helper: the destination file can only change through a completed,
error-free stream followed by a successful rename, in which case it receives
the full temporary-file contents: the initial bytes plus every chunk. -/
theorem streamLoop_dest (total : Option Nat) (renOk : Bool)
    (items : List StreamItem) (dl : Nat) (fs : InstallFs) (bs : List Nat)
    (htemp : fs.temp = some bs)
    (hne : (streamLoop total renOk items dl fs).1.dest ≠ fs.dest) :
    items.any StreamItem.isErrItem = false ∧ renOk = true
    ∧ (streamLoop total renOk items dl fs).1.dest
        = some (bs ++ (items.filterMap StreamItem.chunkData).flatten)
    ∧ (streamLoop total renOk items dl fs).2.2 = .ok () := by
  induction items generalizing dl fs bs with
  | nil =>
    cases renOk with
    | false => simp [streamLoop] at hne
    | true => simp [streamLoop, htemp]
  | cons it rest ih =>
    cases it with
    | chunk d =>
      have htemp' : ({ fs with temp := some ((fs.temp.getD []) ++ d) }).temp
          = some (bs ++ d) := by simp [htemp]
      have h := ih (dl + d.length)
        { fs with temp := some ((fs.temp.getD []) ++ d) } (bs ++ d) htemp'
        (by exact hne)
      refine ⟨by simpa [StreamItem.isErrItem] using h.1, h.2.1, ?_, h.2.2.2⟩
      rw [show (streamLoop total renOk (.chunk d :: rest) dl fs).1
          = (streamLoop total renOk rest (dl + d.length)
              { fs with temp := some ((fs.temp.getD []) ++ d) }).1 from rfl]
      rw [h.2.2.1]
      simp [StreamItem.chunkData]
    | recvErr => simp [streamLoop] at hne
    | writeErr => simp [streamLoop] at hne

/-- C5: for every install run whose HTTP response and temporary-file
creation succeed, (a) if any transport or I/O error interrupts the stream,
the operation returns an error, the pre-existing destination file is
unchanged, and the temporary file is left in place (not deleted); and
(b) the destination is only ever changed by an error-free stream followed by
the rename, in which case it holds exactly the fully-written temporary-file
contents — the concatenation of all streamed chunks — and the operation
succeeds. -/
theorem c5_atomic_install (renameOk : Bool) (total : Option Nat)
    (items : List StreamItem) (fs : InstallFs) :
    (items.any StreamItem.isErrItem = true →
      (download_ytdlp true true renameOk total items fs).1.dest = fs.dest
      ∧ ((download_ytdlp true true renameOk total items fs).1.temp).isSome = true
      ∧ ∃ e, (download_ytdlp true true renameOk total items fs).2.2 = .error e)
    ∧ ((download_ytdlp true true renameOk total items fs).1.dest ≠ fs.dest →
      items.any StreamItem.isErrItem = false ∧ renameOk = true
      ∧ (download_ytdlp true true renameOk total items fs).1.dest
          = some (items.filterMap StreamItem.chunkData).flatten
      ∧ (download_ytdlp true true renameOk total items fs).2.2 = .ok ()) := by
  constructor
  · intro herr
    have h := streamLoop_err total renameOk items 0
      { fs with temp := some [] } herr
    exact ⟨h.1, h.2.1 (by simp), h.2.2⟩
  · intro hne
    have h := streamLoop_dest total renameOk items 0
      { fs with temp := some [] } [] (by simp) (by exact hne)
    refine ⟨h.1, h.2.1, ?_, h.2.2.2⟩
    have hd : (download_ytdlp true true renameOk total items fs).1
        = (streamLoop total renameOk items 0 { fs with temp := some [] }).1 := rfl
    rw [hd, h.2.2.1]
    simp

/-- C5, witness: a two-chunk stream interrupted by a transport error leaves
the old destination and the partial temporary file; and an error-free
stream with a successful rename promotes the full contents. -/
theorem c5_atomic_install_witness :
    ((download_ytdlp true true true (some 4) [.chunk [1, 2], .recvErr]
        ⟨some [9], none⟩).1.dest = some [9]
      ∧ ((download_ytdlp true true true (some 4) [.chunk [1, 2], .recvErr]
        ⟨some [9], none⟩).1.temp).isSome = true
      ∧ ∃ e, (download_ytdlp true true true (some 4) [.chunk [1, 2], .recvErr]
        ⟨some [9], none⟩).2.2 = .error e)
    ∧ (download_ytdlp true true true (some 4) [.chunk [1, 2], .chunk [3, 4]]
        ⟨some [9], none⟩).1.dest = some [1, 2, 3, 4] := by
  constructor
  · exact (c5_atomic_install true (some 4) [.chunk [1, 2], .recvErr]
      ⟨some [9], none⟩).1 rfl
  · have h := (c5_atomic_install true (some 4) [.chunk [1, 2], .chunk [3, 4]]
      ⟨some [9], none⟩).2 (by decide)
    simpa using h.2.2.1

/-- C1 characterization, witness on a host with no binary installed and the
feed reporting `"2024.01.01"`. -/
theorem c1_update_available_characterization_witness :
    (check_update_status false none (some ⟨"2024.01.01", "", ""⟩)).update_available
        = true ↔
      ((∃ c l,
          (check_update_status false none
              (some ⟨"2024.01.01", "", ""⟩)).current_version = some c
          ∧ (check_update_status false none
              (some ⟨"2024.01.01", "", ""⟩)).latest_version = some l
          ∧ c ≠ l)
        ∨ ((check_update_status false none
              (some ⟨"2024.01.01", "", ""⟩)).current_version = none
          ∧ ∃ l,
            (check_update_status false none
                (some ⟨"2024.01.01", "", ""⟩)).latest_version = some l)) :=
  c1_update_available_characterization false none (some ⟨"2024.01.01", "", ""⟩)
